import Mathlib

/-!
Verification of the wallet-service balance-mutation core.

The definitions below are a shallow embedding of the Go sources:
  - `internal/models/wallet.go`        (Wallet, WalletOperation, OperationType)
  - `internal/repository/wallet_repository.go`  (UpdateWalletBalance, CreateWallet)
  - `internal/service/wallet_service.go`        (ProcessOperation, validateOperation)

Go `int64` values are modelled as `Int` together with the explicit
wrap-around `wrap64` at the points where Go's two's-complement
arithmetic can overflow (the balance update).  The database rows of
table `wallets` are modelled as an association list from wallet id to
`Wallet`.  The transaction in `UpdateWalletBalance` either commits (one
atomic store change) or rolls back (store unchanged); infrastructure
failures of an attempt (BeginTx / Scan / Commit errors, cancellation of
the context observed by a store call) are injected by an environment
`Env` that chooses a fault, or no fault, per attempt.
-/

namespace WalletSvc

/-- Smallest Go int64 value, −2^63. -/
def int64Min : Int := -9223372036854775808

/-- Largest Go int64 value, 2^63 − 1. -/
def int64Max : Int := 9223372036854775807

/-- 2^64, the modulus of Go int64 two's-complement arithmetic. -/
def twoPow64 : Int := 18446744073709551616

/-- Reduce an integer to the int64 value Go's wrapping arithmetic produces. -/
def wrap64 (x : Int) : Int := (x - int64Min) % twoPow64 + int64Min

/-- `models.OperationType` is a Go string; these are the two declared constants. -/
def OperationTypeDeposit : String := "DEPOSIT"

/-- `models.OperationTypeWithdraw`. -/
def OperationTypeWithdraw : String := "WITHDRAW"

/-- `models.Wallet` (the fields the core reads and writes: timestamps are
never consulted by any branch of the core, so they are omitted). -/
structure Wallet where
  id : Nat
  balance : Int
  version : Nat
  deriving Repr, DecidableEq

/-- `models.WalletOperation`. -/
structure WalletOperation where
  walletID : Nat
  operationType : String
  amount : Int
  deriving Repr, DecidableEq

/-- The error values of the repository and service packages.
`retriesExhausted` is the `errors.New("failed to process operation after
multiple retries: " + lastErr.Error())` value: a fresh error embedding the
last underlying cause.  `ctxCanceled` models `context.Canceled` /
`context.DeadlineExceeded` surfaced by a store call; `infra code` models any
other infrastructure error (connection failure, commit failure...). -/
inductive WErr where
  | amountMustBePositive
  | invalidOperationType
  | walletNotFound
  | insufficientFunds
  | concurrentModification
  | unknownOperationType
  | ctxCanceled
  | infra (code : Nat)
  | retriesExhausted (last : WErr)
  deriving Repr, DecidableEq

/-- The `wallets` table: an association list from id to row. -/
abbrev Store := List (Nat × Wallet)

/-- `SELECT ... FROM wallets WHERE id = $1` (first row with that id). -/
def lookupWallet : Store → Nat → Option Wallet
  | [], _ => none
  | p :: rest, id => if p.1 = id then some p.2 else lookupWallet rest id

/-- `UPDATE wallets SET ... WHERE id = $1`: replaces every row keyed `id`. -/
def setWallet : Store → Nat → Wallet → Store
  | [], _, _ => []
  | p :: rest, id, w => (if p.1 = id then (id, w) else p) :: setWallet rest id w

/-- `repository.CreateWallet`: a fresh row with balance 0 and version 1. -/
def createWallet (id : Nat) : Wallet := { id := id, balance := 0, version := 1 }

/-- The Compute step of `repository.UpdateWalletBalance` (the `switch
operation` block, lines 129-142): Withdraw checks funds then subtracts,
Deposit adds (Go int64 arithmetic wraps silently), any other operation
type hits the `default` branch. -/
def computeNewBalance (wallet : Wallet) (amount : Int) (operation : String) :
    Except WErr Int :=
  if operation = OperationTypeWithdraw then
    if wallet.balance < amount then Except.error WErr.insufficientFunds
    else Except.ok (wrap64 (wallet.balance - amount))
  else if operation = OperationTypeDeposit then
    Except.ok (wrap64 (wallet.balance + amount))
  else Except.error WErr.unknownOperationType

/-- The conditional write of `repository.UpdateWalletBalance`:
`UPDATE wallets SET balance = $1, version = version + 1 WHERE id = $3 AND
version = $4 RETURNING ...`; `sql.ErrNoRows` (no row matched the id and
expected version) is mapped to `ErrConcurrentModification`. -/
def conditionalUpdate (store : Store) (id expectedVersion : Nat) (newBalance : Int) :
    Except WErr (Store × Wallet) :=
  match lookupWallet store id with
  | none => Except.error WErr.concurrentModification
  | some w =>
    if w.version = expectedVersion then
      let u : Wallet := { w with balance := newBalance, version := w.version + 1 }
      Except.ok (setWallet store id u, u)
    else Except.error WErr.concurrentModification

/-- `repository.UpdateWalletBalance`: read the row (`ErrWalletNotFound` if
absent), compute the new balance, then conditionally update against the
version that was read.  Every error path rolls the transaction back, so an
error leaves the store unchanged; the caller receives the updated store
only on the success path (commit). -/
def UpdateWalletBalance (store : Store) (id : Nat) (amount : Int) (operation : String) :
    Except WErr (Store × Wallet) :=
  match lookupWallet store id with
  | none => Except.error WErr.walletNotFound
  | some wallet =>
    match computeNewBalance wallet amount operation with
    | Except.error e => Except.error e
    | Except.ok newBalance => conditionalUpdate store id wallet.version newBalance

/-- `service.validateOperation`: amount must be positive, operation type
must be one of the two declared constants.  The amount check runs first. -/
def validateOperation (operation : WalletOperation) : Option WErr :=
  if operation.amount ≤ 0 then some WErr.amountMustBePositive
  else if operation.operationType ≠ OperationTypeDeposit ∧
      operation.operationType ≠ OperationTypeWithdraw then
    some WErr.invalidOperationType
  else none

/-- `errors.Is(err, ErrWalletNotFound) || errors.Is(err, ErrInsufficientFunds)`:
the two errors `ProcessOperation` returns to the caller without retrying. -/
def isTerminalErr : WErr → Bool
  | WErr.walletNotFound => true
  | WErr.insufficientFunds => true
  | _ => false

/-- Per-attempt fault injection: `none` lets the repository call run
normally, `some e` makes the attempt fail with `e` before the commit
(transaction rolled back, store unchanged). -/
abbrev Env := Nat → Option WErr

/-- One attempt of the loop body of `service.ProcessOperation`: the
repository call either commits (new store) or fails (store unchanged,
because of `defer tx.Rollback()`). -/
def attemptOnce (store : Store) (operation : WalletOperation) (fault : Option WErr) :
    Except WErr Wallet × Store :=
  match fault with
  | some e => (Except.error e, store)
  | none =>
    match UpdateWalletBalance store operation.walletID operation.amount
        operation.operationType with
    | Except.ok (store', w) => (Except.ok w, store')
    | Except.error e => (Except.error e, store)

/-- The retry loop of `service.ProcessOperation` (`for i := 0; i < maxRetries`
with `maxRetries = 5`).  `rem` is the number of further attempts allowed
after the current one (4 on entry).  On a retryable failure the code
records `lastErr`, sleeps `backoff`, doubles `backoff` and loops; note the
Go loop sleeps once more after the final failed attempt before returning
the exhaustion error.  The result carries the final store, the number of
attempts made, and the list of sleep durations (ms) in order. -/
def processLoop (env : Env) (operation : WalletOperation) :
    Nat → Nat → Nat → Store → List Nat →
    Except WErr Wallet × Store × Nat × List Nat
  | i, rem, backoff, store, sleeps =>
    match attemptOnce store operation (env i) with
    | (Except.ok w, store') => (Except.ok w, store', i + 1, sleeps)
    | (Except.error e, store') =>
      if isTerminalErr e then (Except.error e, store', i + 1, sleeps)
      else
        match rem with
        | 0 => (Except.error (WErr.retriesExhausted e), store', i + 1, sleeps ++ [backoff])
        | rem' + 1 =>
          processLoop env operation (i + 1) rem' (2 * backoff) store' (sleeps ++ [backoff])

/-- `service.ProcessOperation`: validate, then run the retry loop with
5 total attempts and a 10ms starting backoff.  Returns the result, the
final store, the number of repository attempts made, and the sleeps. -/
def ProcessOperation (env : Env) (store : Store) (operation : WalletOperation) :
    Except WErr Wallet × Store × Nat × List Nat :=
  match validateOperation operation with
  | some e => (Except.error e, store, 0, [])
  | none => processLoop env operation 0 4 10 store []

/-- Every stored balance is a nonnegative int64 value. -/
def walletInvB (store : Store) : Bool :=
  store.all fun p => decide (0 ≤ p.2.balance) && decide (p.2.balance ≤ int64Max)

/-- The operation, if it is a deposit hitting an existing wallet, does not
overflow int64 at this store. -/
def depositFits (store : Store) (operation : WalletOperation) : Bool :=
  if operation.operationType = OperationTypeDeposit then
    match lookupWallet store operation.walletID with
    | some w => decide (w.balance + operation.amount ≤ int64Max)
    | none => true
  else true

/-- The store after one client call of `ProcessOperation`. -/
def stepOp (store : Store) (p : WalletOperation × Env) : Store :=
  (ProcessOperation p.2 store p.1).2.1

/-- The store after a sequence of client calls of `ProcessOperation`. -/
def runOps : Store → List (WalletOperation × Env) → Store
  | store, [] => store
  | store, p :: rest => runOps (stepOp store p) rest

/-- Every deposit of the sequence fits in int64 at the state where it is
applied. -/
def noOverflowAlong : Store → List (WalletOperation × Env) → Bool
  | _, [] => true
  | store, p :: rest => depositFits store p.1 && noOverflowAlong (stepOp store p) rest

end WalletSvc

deriving instance DecidableEq for Except

namespace WalletSvc

/-! ## Basic lemmas -/

theorem wrap64_eq_self {x : Int} (h1 : int64Min ≤ x) (h2 : x ≤ int64Max) :
    wrap64 x = x := by
  simp only [wrap64, int64Min, int64Max, twoPow64] at h1 h2 ⊢
  omega

theorem lookupWallet_setWallet {store : Store} {id : Nat} {w : Wallet} (u : Wallet)
    (h : lookupWallet store id = some w) :
    lookupWallet (setWallet store id u) id = some u := by
  induction store with
  | nil => simp [lookupWallet] at h
  | cons p rest ih =>
    by_cases hp : p.1 = id
    · simp [lookupWallet, setWallet, hp]
    · simp only [lookupWallet, setWallet, hp, if_false, if_neg hp] at h ⊢
      exact ih h

theorem attemptOnce_error_store {store : Store} {op : WalletOperation} {f : Option WErr}
    {e : WErr} {store' : Store}
    (h : attemptOnce store op f = (Except.error e, store')) : store' = store := by
  unfold attemptOnce at h
  cases f with
  | some e' =>
    simp only [Prod.mk.injEq] at h
    exact h.2.symm
  | none =>
    cases hU : UpdateWalletBalance store op.walletID op.amount op.operationType with
    | ok p =>
      rw [hU] at h
      simp at h
    | error e' =>
      rw [hU] at h
      simp only [Prod.mk.injEq] at h
      exact h.2.symm

theorem attemptOnce_ok {store : Store} {op : WalletOperation} {f : Option WErr}
    {w : Wallet} {store' : Store}
    (h : attemptOnce store op f = (Except.ok w, store')) :
    UpdateWalletBalance store op.walletID op.amount op.operationType =
      Except.ok (store', w) := by
  unfold attemptOnce at h
  cases f with
  | some e => simp at h
  | none =>
    cases hU : UpdateWalletBalance store op.walletID op.amount op.operationType with
    | ok p =>
      rw [hU] at h
      obtain ⟨s, wres⟩ := p
      simp only [Prod.mk.injEq, Except.ok.injEq] at h
      rw [h.1, h.2]
    | error e' =>
      rw [hU] at h
      simp at h

theorem processLoop_step (env : Env) (op : WalletOperation) (i rem backoff : Nat)
    (store : Store) (sleeps : List Nat) :
    processLoop env op i rem backoff store sleeps =
      match attemptOnce store op (env i) with
      | (Except.ok w, store') => (Except.ok w, store', i + 1, sleeps)
      | (Except.error e, store') =>
        if isTerminalErr e then (Except.error e, store', i + 1, sleeps)
        else
          match rem with
          | 0 => (Except.error (WErr.retriesExhausted e), store', i + 1, sleeps ++ [backoff])
          | rem' + 1 =>
            processLoop env op (i + 1) rem' (2 * backoff) store' (sleeps ++ [backoff]) := by
  rw [processLoop]

theorem processLoop_error_store {env : Env} {op : WalletOperation} :
    ∀ (rem i backoff : Nat) (store : Store) (sleeps : List Nat) {e : WErr}
      {store' : Store} {n : Nat} {sl : List Nat},
      processLoop env op i rem backoff store sleeps = (Except.error e, store', n, sl) →
      store' = store := by
  intro rem
  induction rem with
  | zero =>
    intro i backoff store sleeps e store' n sl h
    rw [processLoop_step] at h
    split at h
    next w st heq => simp at h
    next e' st heq =>
      have hst : st = store := attemptOnce_error_store heq
      split at h
      next hT =>
        simp only [Prod.mk.injEq] at h
        rw [← h.2.1, hst]
      next hT =>
        simp only [Prod.mk.injEq] at h
        rw [← h.2.1, hst]
  | succ rem' ih =>
    intro i backoff store sleeps e store' n sl h
    rw [processLoop_step] at h
    split at h
    next w st heq => simp at h
    next e' st heq =>
      have hst : st = store := attemptOnce_error_store heq
      split at h
      next hT =>
        simp only [Prod.mk.injEq] at h
        rw [← h.2.1, hst]
      next hT =>
        rw [ih (i + 1) (2 * backoff) st (sleeps ++ [backoff]) h, hst]

theorem processLoop_ok_update {env : Env} {op : WalletOperation} :
    ∀ (rem i backoff : Nat) (store : Store) (sleeps : List Nat) {w : Wallet}
      {store' : Store} {n : Nat} {sl : List Nat},
      processLoop env op i rem backoff store sleeps = (Except.ok w, store', n, sl) →
      UpdateWalletBalance store op.walletID op.amount op.operationType =
        Except.ok (store', w) := by
  intro rem
  induction rem with
  | zero =>
    intro i backoff store sleeps w store' n sl h
    rw [processLoop_step] at h
    split at h
    next w' st heq =>
      simp only [Prod.mk.injEq, Except.ok.injEq] at h
      rw [← h.1, ← h.2.1]
      exact attemptOnce_ok heq
    next e' st heq =>
      split at h
      next hT => simp at h
      next hT => simp at h
  | succ rem' ih =>
    intro i backoff store sleeps w store' n sl h
    rw [processLoop_step] at h
    split at h
    next w' st heq =>
      simp only [Prod.mk.injEq, Except.ok.injEq] at h
      rw [← h.1, ← h.2.1]
      exact attemptOnce_ok heq
    next e' st heq =>
      have hst : st = store := attemptOnce_error_store heq
      split at h
      next hT => simp at h
      next hT =>
        have := ih (i + 1) (2 * backoff) st (sleeps ++ [backoff]) h
        rw [hst] at this
        exact this

theorem range_map_double (k b : Nat) :
    (List.range (k + 1)).map (fun j => b * 2 ^ j) =
      b :: (List.range k).map (fun j => 2 * b * 2 ^ j) := by
  rw [List.range_succ_eq_map, List.map_cons, List.map_map]
  have hf : ((fun j => b * 2 ^ j) ∘ Nat.succ) = (fun j => 2 * b * 2 ^ j) := by
    funext j
    simp only [Function.comp, pow_succ]
    ring
  rw [hf]
  simp

theorem processLoop_trace {env : Env} {op : WalletOperation} :
    ∀ (rem i backoff : Nat) (store : Store) (sleeps : List Nat)
      {res : Except WErr Wallet} {store' : Store} {n : Nat} {sl : List Nat},
      processLoop env op i rem backoff store sleeps = (res, store', n, sl) →
      ∃ k, sl = sleeps ++ (List.range k).map (fun j => backoff * 2 ^ j) ∧
        ((k ≤ rem ∧ n = i + k + 1 ∧
            ((∃ w, res = Except.ok w) ∨
             (∃ e, res = Except.error e ∧ isTerminalErr e = true))) ∨
         (k = rem + 1 ∧ n = i + rem + 1 ∧
            ∃ e, res = Except.error (WErr.retriesExhausted e))) := by
  intro rem
  induction rem with
  | zero =>
    intro i backoff store sleeps res store' n sl h
    rw [processLoop_step] at h
    split at h
    next w st heq =>
      simp only [Prod.mk.injEq] at h
      refine ⟨0, ?_, Or.inl ⟨Nat.le_refl 0, ?_, Or.inl ⟨w, h.1.symm⟩⟩⟩
      · simp [h.2.2.2]
      · omega
    next e' st heq =>
      split at h
      next hT =>
        simp only [Prod.mk.injEq] at h
        refine ⟨0, ?_, Or.inl ⟨Nat.le_refl 0, ?_, Or.inr ⟨e', h.1.symm, hT⟩⟩⟩
        · simp [h.2.2.2]
        · omega
      next hT =>
        simp only [Prod.mk.injEq] at h
        refine ⟨1, ?_, Or.inr ⟨rfl, ?_, e', h.1.symm⟩⟩
        · rw [← h.2.2.2]
          simp [List.range_succ]
        · omega
  | succ rem' ih =>
    intro i backoff store sleeps res store' n sl h
    rw [processLoop_step] at h
    split at h
    next w st heq =>
      simp only [Prod.mk.injEq] at h
      refine ⟨0, ?_, Or.inl ⟨Nat.zero_le _, ?_, Or.inl ⟨w, h.1.symm⟩⟩⟩
      · simp [h.2.2.2]
      · omega
    next e' st heq =>
      split at h
      next hT =>
        simp only [Prod.mk.injEq] at h
        refine ⟨0, ?_, Or.inl ⟨Nat.zero_le _, ?_, Or.inr ⟨e', h.1.symm, hT⟩⟩⟩
        · simp [h.2.2.2]
        · omega
      next hT =>
        obtain ⟨k', hsl, hdisj⟩ := ih (i + 1) (2 * backoff) st (sleeps ++ [backoff]) h
        refine ⟨k' + 1, ?_, ?_⟩
        · rw [hsl, range_map_double, List.append_assoc]
          rfl
        · rcases hdisj with ⟨hk, hn, hres⟩ | ⟨hk, hn, hres⟩
          · exact Or.inl ⟨by omega, by omega, hres⟩
          · exact Or.inr ⟨by omega, by omega, hres⟩

theorem processLoop_all_fail {env : Env} {op : WalletOperation} :
    ∀ (rem i backoff : Nat) (store : Store) (sleeps : List Nat),
      (∀ j, j ≤ rem → ∃ e, (attemptOnce store op (env (i + j))).1 = Except.error e ∧
          isTerminalErr e = false) →
      ∃ e, (attemptOnce store op (env (i + rem))).1 = Except.error e ∧
        processLoop env op i rem backoff store sleeps =
          (Except.error (WErr.retriesExhausted e), store, i + rem + 1,
            sleeps ++ (List.range (rem + 1)).map (fun j => backoff * 2 ^ j)) := by
  intro rem
  induction rem with
  | zero =>
    intro i backoff store sleeps hall
    obtain ⟨e, hE, hF⟩ := hall 0 (Nat.le_refl 0)
    rcases hA : attemptOnce store op (env (i + 0)) with ⟨r, st⟩
    rw [hA] at hE
    simp only at hE
    rw [hE] at hA
    have hst : st = store := attemptOnce_error_store hA
    refine ⟨e, hE, ?_⟩
    rw [processLoop_step]
    rw [Nat.add_zero] at hA
    rw [hA]
    simp [hF, hst, List.range_succ]
  | succ rem' ih =>
    intro i backoff store sleeps hall
    obtain ⟨e0, hE0, hF0⟩ := hall 0 (Nat.zero_le _)
    rcases hA : attemptOnce store op (env (i + 0)) with ⟨r, st⟩
    rw [hA] at hE0
    simp only at hE0
    rw [hE0] at hA
    have hst : st = store := attemptOnce_error_store hA
    have hall' : ∀ j, j ≤ rem' →
        ∃ e, (attemptOnce store op (env (i + 1 + j))).1 = Except.error e ∧
          isTerminalErr e = false := by
      intro j hj
      have := hall (j + 1) (by omega)
      rwa [show i + (j + 1) = i + 1 + j by omega] at this
    obtain ⟨e, hE, hL⟩ := ih (i + 1) (2 * backoff) store (sleeps ++ [backoff]) hall'
    refine ⟨e, by rwa [show i + (rem' + 1) = i + 1 + rem' by omega], ?_⟩
    rw [processLoop_step]
    rw [Nat.add_zero] at hA
    rw [hA]
    simp only [hF0, Bool.false_eq_true, if_false]
    rw [hst, hL]
    rw [range_map_double (rem' + 1) backoff, List.append_assoc]
    have hn : i + 1 + rem' + 1 = i + (rem' + 1) + 1 := by omega
    rw [hn]
    rfl

theorem conditionalUpdate_self {store : Store} {id : Nat} {v : Wallet}
    (hL : lookupWallet store id = some v) (nb : Int) :
    conditionalUpdate store id v.version nb =
      Except.ok (setWallet store id { v with balance := nb, version := v.version + 1 },
        { v with balance := nb, version := v.version + 1 }) := by
  unfold conditionalUpdate
  rw [hL]
  simp

theorem conditionalUpdate_error {store : Store} {id ev : Nat} {nb : Int} {e : WErr}
    (h : conditionalUpdate store id ev nb = Except.error e) :
    e = WErr.concurrentModification := by
  unfold conditionalUpdate at h
  split at h
  next heqL =>
    simp only [Except.error.injEq] at h
    exact h.symm
  next v heqL =>
    split at h
    next hv => simp at h
    next hv =>
      simp only [Except.error.injEq] at h
      exact h.symm

theorem UpdateWalletBalance_ok {store : Store} {id : Nat} {amount : Int} {opType : String}
    {store' : Store} {w : Wallet}
    (h : UpdateWalletBalance store id amount opType = Except.ok (store', w)) :
    ∃ v nb, lookupWallet store id = some v ∧
      computeNewBalance v amount opType = Except.ok nb ∧
      w = { v with balance := nb, version := v.version + 1 } ∧
      store' = setWallet store id w := by
  unfold UpdateWalletBalance at h
  split at h
  next heqL => simp at h
  next v heqL =>
    split at h
    next e heqC => simp at h
    next nb heqC =>
      rw [conditionalUpdate_self heqL nb] at h
      simp only [Except.ok.injEq, Prod.mk.injEq] at h
      exact ⟨v, nb, heqL, heqC, h.2.symm, by rw [← h.1, h.2]⟩

theorem UpdateWalletBalance_insufficient_iff (store : Store) (id : Nat) (amount : Int)
    (opType : String) :
    UpdateWalletBalance store id amount opType = Except.error WErr.insufficientFunds ↔
      opType = OperationTypeWithdraw ∧
        ∃ w, lookupWallet store id = some w ∧ w.balance < amount := by
  unfold UpdateWalletBalance computeNewBalance
  split
  next heqL => simp [heqL]
  next v heqL =>
    by_cases hW : opType = OperationTypeWithdraw
    · rw [if_pos hW]
      by_cases hlt : v.balance < amount
      · rw [if_pos hlt]
        simp [heqL, hW, hlt]
      · rw [if_neg hlt]
        simp only [hW, true_and, heqL]
        constructor
        · intro h
          have h' : conditionalUpdate store id v.version (wrap64 (v.balance - amount)) =
              Except.error WErr.insufficientFunds := h
          exact absurd (conditionalUpdate_error h') (by simp)
        · rintro ⟨w, hw, hlt'⟩
          rw [Option.some.injEq] at hw
          rw [← hw] at hlt'
          exact absurd hlt' hlt
    · rw [if_neg hW]
      by_cases hD : opType = OperationTypeDeposit
      · rw [if_pos hD]
        simp only [hW, false_and, iff_false]
        intro h
        have h' : conditionalUpdate store id v.version (wrap64 (v.balance + amount)) =
            Except.error WErr.insufficientFunds := h
        exact absurd (conditionalUpdate_error h') (by simp)
      · rw [if_neg hD]
        simp [hW]

theorem UpdateWalletBalance_not_unknown {store : Store} {id : Nat} {amount : Int}
    {opType : String}
    (hDW : opType = OperationTypeDeposit ∨ opType = OperationTypeWithdraw) :
    UpdateWalletBalance store id amount opType ≠
      Except.error WErr.unknownOperationType := by
  unfold UpdateWalletBalance computeNewBalance
  split
  next heqL => simp
  next v heqL =>
    rcases hDW with hD | hW
    · have hW' : opType ≠ OperationTypeWithdraw := by
        rw [hD]
        decide
      rw [if_neg hW', if_pos hD]
      intro h
      have h' : conditionalUpdate store id v.version (wrap64 (v.balance + amount)) =
          Except.error WErr.unknownOperationType := h
      exact absurd (conditionalUpdate_error h') (by simp)
    · rw [if_pos hW]
      by_cases hlt : v.balance < amount
      · rw [if_pos hlt]
        simp
      · rw [if_neg hlt]
        intro h
        have h' : conditionalUpdate store id v.version (wrap64 (v.balance - amount)) =
            Except.error WErr.unknownOperationType := h
        exact absurd (conditionalUpdate_error h') (by simp)

theorem ProcessOperation_error_store {env : Env} {store : Store} {op : WalletOperation}
    {e : WErr} {store' : Store} {n : Nat} {sl : List Nat}
    (h : ProcessOperation env store op = (Except.error e, store', n, sl)) :
    store' = store := by
  unfold ProcessOperation at h
  cases hV : validateOperation op with
  | some e' =>
    rw [hV] at h
    simp only [Prod.mk.injEq] at h
    exact h.2.1.symm
  | none =>
    rw [hV] at h
    exact processLoop_error_store 4 0 10 store [] h

theorem ProcessOperation_ok_update {env : Env} {store : Store} {op : WalletOperation}
    {w : Wallet} {store' : Store} {n : Nat} {sl : List Nat}
    (h : ProcessOperation env store op = (Except.ok w, store', n, sl)) :
    validateOperation op = none ∧
      UpdateWalletBalance store op.walletID op.amount op.operationType =
        Except.ok (store', w) := by
  unfold ProcessOperation at h
  cases hV : validateOperation op with
  | some e' =>
    rw [hV] at h
    simp at h
  | none =>
    rw [hV] at h
    exact ⟨rfl, processLoop_ok_update 4 0 10 store [] h⟩

theorem validateOperation_none_iff (op : WalletOperation) :
    validateOperation op = none ↔
      0 < op.amount ∧ (op.operationType = OperationTypeDeposit ∨
        op.operationType = OperationTypeWithdraw) := by
  unfold validateOperation
  by_cases h1 : op.amount ≤ 0
  · rw [if_pos h1]
    simp only [reduceCtorEq, false_iff, not_and]
    intro ha
    omega
  · rw [if_neg h1]
    by_cases h2 : op.operationType ≠ OperationTypeDeposit ∧
        op.operationType ≠ OperationTypeWithdraw
    · rw [if_pos h2]
      simp only [reduceCtorEq, false_iff, not_and]
      intro _
      rintro (hD | hW)
      · exact h2.1 hD
      · exact h2.2 hW
    · rw [if_neg h2]
      simp only [true_iff]
      push_neg at h2
      constructor
      · omega
      · by_cases hD : op.operationType = OperationTypeDeposit
        · exact Or.inl hD
        · exact Or.inr (h2 hD)

theorem validateOperation_amount_iff (op : WalletOperation) :
    validateOperation op = some WErr.amountMustBePositive ↔ op.amount ≤ 0 := by
  unfold validateOperation
  by_cases h1 : op.amount ≤ 0
  · rw [if_pos h1]
    simp [h1]
  · rw [if_neg h1]
    by_cases h2 : op.operationType ≠ OperationTypeDeposit ∧
        op.operationType ≠ OperationTypeWithdraw
    · rw [if_pos h2]
      simp [h1]
    · rw [if_neg h2]
      simp [h1]

theorem validateOperation_kind_iff (op : WalletOperation) :
    validateOperation op = some WErr.invalidOperationType ↔
      (0 < op.amount ∧ op.operationType ≠ OperationTypeDeposit ∧
        op.operationType ≠ OperationTypeWithdraw) := by
  unfold validateOperation
  by_cases h1 : op.amount ≤ 0
  · rw [if_pos h1]
    simp only [Option.some.injEq, reduceCtorEq, false_iff, not_and]
    intro ha
    omega
  · rw [if_neg h1]
    by_cases h2 : op.operationType ≠ OperationTypeDeposit ∧
        op.operationType ≠ OperationTypeWithdraw
    · rw [if_pos h2]
      simp only [true_iff]
      exact ⟨by omega, h2⟩
    · rw [if_neg h2]
      simp only [reduceCtorEq, false_iff, not_and]
      intro _ hD hW
      exact h2 ⟨hD, hW⟩

theorem walletInvB_lookup {store : Store} {id : Nat} {v : Wallet}
    (hInv : walletInvB store = true) (hL : lookupWallet store id = some v) :
    0 ≤ v.balance ∧ v.balance ≤ int64Max := by
  induction store with
  | nil => simp [lookupWallet] at hL
  | cons p rest ih =>
    simp only [walletInvB, List.all_cons, Bool.and_eq_true, decide_eq_true_eq] at hInv
    by_cases hp : p.1 = id
    · simp only [lookupWallet, if_pos hp, Option.some.injEq] at hL
      rw [← hL]
      exact hInv.1
    · simp only [lookupWallet, if_neg hp] at hL
      exact ih hInv.2 hL

theorem walletInvB_setWallet {store : Store} (id : Nat) {u : Wallet}
    (hInv : walletInvB store = true) (h0 : 0 ≤ u.balance) (h1 : u.balance ≤ int64Max) :
    walletInvB (setWallet store id u) = true := by
  induction store with
  | nil => rfl
  | cons p rest ih =>
    simp only [walletInvB, setWallet, List.all_cons, Bool.and_eq_true,
      decide_eq_true_eq] at hInv ⊢
    refine ⟨?_, ih hInv.2⟩
    by_cases hp : p.1 = id
    · simp [hp, h0, h1]
    · simp only [if_neg hp]
      exact hInv.1

theorem ProcessOperation_ok_shape {env : Env} {store : Store} {op : WalletOperation}
    {w : Wallet} {store' : Store} {n : Nat} {sl : List Nat}
    (h : ProcessOperation env store op = (Except.ok w, store', n, sl)) :
    ∃ v nb, lookupWallet store op.walletID = some v ∧
      computeNewBalance v op.amount op.operationType = Except.ok nb ∧
      w = { v with balance := nb, version := v.version + 1 } ∧
      store' = setWallet store op.walletID w ∧
      validateOperation op = none := by
  obtain ⟨hV, hU⟩ := ProcessOperation_ok_update h
  obtain ⟨v, nb, hL, hC, hw, hs⟩ := UpdateWalletBalance_ok hU
  exact ⟨v, nb, hL, hC, hw, hs, hV⟩

theorem computeNewBalance_deposit {v : Wallet} {amount : Int} {opType : String}
    (hD : opType = OperationTypeDeposit) :
    computeNewBalance v amount opType = Except.ok (wrap64 (v.balance + amount)) := by
  unfold computeNewBalance
  have hW : opType ≠ OperationTypeWithdraw := by
    rw [hD]
    decide
  rw [if_neg hW, if_pos hD]

theorem computeNewBalance_withdraw {v : Wallet} {amount nb : Int} {opType : String}
    (hW : opType = OperationTypeWithdraw)
    (h : computeNewBalance v amount opType = Except.ok nb) :
    amount ≤ v.balance ∧ nb = wrap64 (v.balance - amount) := by
  unfold computeNewBalance at h
  rw [if_pos hW] at h
  by_cases hlt : v.balance < amount
  · rw [if_pos hlt] at h
    simp at h
  · rw [if_neg hlt] at h
    simp only [Except.ok.injEq] at h
    exact ⟨by omega, h.symm⟩

theorem stepOp_preserves {store : Store} (p : WalletOperation × Env)
    (hInv : walletInvB store = true) (hFit : depositFits store p.1 = true) :
    walletInvB (stepOp store p) = true := by
  rcases hP : ProcessOperation p.2 store p.1 with ⟨res, store', n, sl⟩
  have hstep : stepOp store p = store' := by
    unfold stepOp
    rw [hP]
  rw [hstep]
  cases res with
  | error e =>
    rw [ProcessOperation_error_store hP]
    exact hInv
  | ok w =>
    obtain ⟨v, nb, hL, hC, hw, hs, hV⟩ := ProcessOperation_ok_shape hP
    obtain ⟨hamt, hDW⟩ := (validateOperation_none_iff p.1).mp hV
    have hvb := walletInvB_lookup hInv hL
    have hnb : 0 ≤ nb ∧ nb ≤ int64Max := by
      rcases hDW with hD | hWd
      · have hfit' : v.balance + p.1.amount ≤ int64Max := by
          unfold depositFits at hFit
          rw [if_pos hD, hL] at hFit
          simpa using hFit
        rw [computeNewBalance_deposit hD] at hC
        simp only [Except.ok.injEq] at hC
        rw [← hC, wrap64_eq_self (by unfold int64Min; omega) hfit']
        constructor
        · omega
        · exact hfit'
      · obtain ⟨hle, hnb⟩ := computeNewBalance_withdraw hWd hC
        have hmax := hvb.2
        rw [hnb, wrap64_eq_self (by unfold int64Min int64Max at *; omega)
          (by unfold int64Max at *; omega)]
        constructor
        · omega
        · unfold int64Max at *
          omega
    rw [hs]
    refine walletInvB_setWallet _ hInv ?_ ?_
    · rw [hw]
      exact hnb.1
    · rw [hw]
      exact hnb.2

theorem runOps_preserves :
    ∀ (ops : List (WalletOperation × Env)) (store : Store),
      walletInvB store = true → noOverflowAlong store ops = true →
      walletInvB (runOps store ops) = true := by
  intro ops
  induction ops with
  | nil =>
    intro store h _
    exact h
  | cons p rest ih =>
    intro store hInv hNo
    simp only [noOverflowAlong, Bool.and_eq_true] at hNo
    simp only [runOps]
    exact ih _ (stepOp_preserves p hInv hNo.1) hNo.2

theorem conditionalUpdate_mismatch {store : Store} {id : Nat} {u : Wallet} {ev : Nat}
    (hL : lookupWallet store id = some u) (hne : u.version ≠ ev) (nb : Int) :
    conditionalUpdate store id ev nb = Except.error WErr.concurrentModification := by
  unfold conditionalUpdate
  split
  next heq => rfl
  next w heq =>
    rw [hL] at heq
    rw [Option.some.injEq] at heq
    rw [heq] at hne
    rw [if_neg hne]

theorem attemptOnce_error_cases {store : Store} {op : WalletOperation} {f : Option WErr}
    {e : WErr} {st : Store}
    (h : attemptOnce store op f = (Except.error e, st)) :
    f = some e ∨
      UpdateWalletBalance store op.walletID op.amount op.operationType =
        Except.error e := by
  unfold attemptOnce at h
  cases f with
  | some e' =>
    simp only [Prod.mk.injEq, Except.error.injEq] at h
    exact Or.inl (by rw [h.1])
  | none =>
    cases hU : UpdateWalletBalance store op.walletID op.amount op.operationType with
    | ok p =>
      rw [hU] at h
      rcases p with ⟨s, w⟩
      simp at h
    | error e' =>
      rw [hU] at h
      simp only [Prod.mk.injEq, Except.error.injEq] at h
      exact Or.inr (by rw [h.1])

theorem processLoop_error_cases {env : Env} {op : WalletOperation} :
    ∀ (rem i backoff : Nat) (store : Store) (sleeps : List Nat) {e : WErr}
      {store' : Store} {n : Nat} {sl : List Nat},
      processLoop env op i rem backoff store sleeps = (Except.error e, store', n, sl) →
      (∃ j, env j = some e) ∨
      (∃ st, UpdateWalletBalance st op.walletID op.amount op.operationType =
        Except.error e) ∨
      (∃ e', e = WErr.retriesExhausted e') := by
  intro rem
  induction rem with
  | zero =>
    intro i backoff store sleeps e store' n sl h
    rw [processLoop_step] at h
    split at h
    next w st heq => simp at h
    next e' st heq =>
      split at h
      next hT =>
        simp only [Prod.mk.injEq, Except.error.injEq] at h
        rw [← h.1]
        rcases attemptOnce_error_cases heq with hf | hu
        · exact Or.inl ⟨i, hf⟩
        · exact Or.inr (Or.inl ⟨store, hu⟩)
      next hT =>
        simp only [Prod.mk.injEq, Except.error.injEq] at h
        exact Or.inr (Or.inr ⟨e', h.1.symm⟩)
  | succ rem' ih =>
    intro i backoff store sleeps e store' n sl h
    rw [processLoop_step] at h
    split at h
    next w st heq => simp at h
    next e' st heq =>
      split at h
      next hT =>
        simp only [Prod.mk.injEq, Except.error.injEq] at h
        rw [← h.1]
        rcases attemptOnce_error_cases heq with hf | hu
        · exact Or.inl ⟨i, hf⟩
        · exact Or.inr (Or.inl ⟨store, hu⟩)
      next hT =>
        exact ih (i + 1) (2 * backoff) st (sleeps ++ [backoff]) h

theorem validateOperation_some {op : WalletOperation} {e : WErr}
    (h : validateOperation op = some e) :
    e = WErr.amountMustBePositive ∨ e = WErr.invalidOperationType := by
  unfold validateOperation at h
  split at h
  next =>
    rw [Option.some.injEq] at h
    exact Or.inl h.symm
  next =>
    split at h
    next =>
      rw [Option.some.injEq] at h
      exact Or.inr h.symm
    next => simp at h

/-! ## Claim theorems -/

/-- Claim C1, counterexample: the claim as stated is false on the code.  A
validated Deposit of amount 1 on a wallet whose balance is the largest int64
value succeeds, but the returned balance is the wrapped value −2^63, not
prior balance + 1: Go's int64 addition overflows silently. -/
theorem claim1_counterexample :
    validateOperation { walletID := 0, operationType := "DEPOSIT", amount := 1 } = none ∧
    (ProcessOperation (fun _ => none)
        [(0, { id := 0, balance := int64Max, version := 1 })]
        { walletID := 0, operationType := "DEPOSIT", amount := 1 }).1 =
      Except.ok { id := 0, balance := int64Min, version := 2 } ∧
    int64Min ≠ int64Max + 1 :=
  ⟨rfl, rfl, by decide⟩

/-- Claim C1 (amended): for every existing wallet and every validated
operation that succeeds, a Deposit of amount `a` with
`prior balance + a ≤ 2^63 − 1` returns a wallet with
balance = prior balance + a, and a Withdraw of amount `a` returns a wallet
with balance = prior balance − a (the funds check makes `a ≤ prior balance`);
in both cases the returned wallet's version = prior version + 1.  (The claim
as originally stated omits the overflow proviso on deposits; see the
counterexample.) -/
theorem claim1_amended {env : Env} {store : Store} {op : WalletOperation}
    {res : Except WErr Wallet} {store' : Store} {n : Nat} {sl : List Nat} {w v : Wallet}
    (hP : ProcessOperation env store op = (res, store', n, sl))
    (hok : res = Except.ok w)
    (hL : lookupWallet store op.walletID = some v)
    (hlo : int64Min ≤ v.balance) (hhi : v.balance ≤ int64Max) :
    (op.operationType = OperationTypeDeposit → v.balance + op.amount ≤ int64Max →
      w.balance = v.balance + op.amount) ∧
    (op.operationType = OperationTypeWithdraw → w.balance = v.balance - op.amount) ∧
    w.version = v.version + 1 := by
  rw [hok] at hP
  obtain ⟨v', nb, hL', hC, hw, _, hV⟩ := ProcessOperation_ok_shape hP
  rw [hL] at hL'
  rw [Option.some.injEq] at hL'
  rw [← hL'] at hC
  obtain ⟨hamt, _⟩ := (validateOperation_none_iff op).mp hV
  refine ⟨?_, ?_, by rw [hw, hL']⟩
  · intro hD hfit
    rw [computeNewBalance_deposit hD] at hC
    rw [Except.ok.injEq] at hC
    rw [hw, ← hL']
    show nb = v.balance + op.amount
    rw [← hC]
    exact wrap64_eq_self (by unfold int64Min at *; omega) hfit
  · intro hWd
    obtain ⟨hle, hnb⟩ := computeNewBalance_withdraw hWd hC
    rw [hw, ← hL']
    show nb = v.balance - op.amount
    rw [hnb]
    exact wrap64_eq_self (by unfold int64Min at *; omega)
      (by unfold int64Max at *; omega)

/-- Claim C1, witness: a concrete validated Withdraw of 30 from balance 100
at version 3 returns balance 70 = 100 − 30 and version 4 = 3 + 1. -/
theorem claim1_witness : (70 : Int) = 100 - 30 ∧ (4 : Nat) = 3 + 1 := by
  have h := claim1_amended
    (rfl : ProcessOperation (fun _ => none)
        [(7, { id := 7, balance := 100, version := 3 })]
        { walletID := 7, operationType := "WITHDRAW", amount := 30 } =
      (Except.ok { id := 7, balance := 70, version := 4 },
        [(7, { id := 7, balance := 70, version := 4 })], 1, []))
    rfl rfl (by decide) (by decide)
  exact ⟨h.2.1 rfl, h.2.2⟩

/-- Claim C2: whenever `ProcessOperation` returns an error — in particular
`InsufficientFunds` (which the repository raises exactly when the operation
is a Withdraw whose amount exceeds the current balance), `NotFound`, or
retry exhaustion — the final store is the store from before the first
attempt: every failing attempt rolls its transaction back and no partial
mutation survives. -/
theorem claim2_error_atomicity :
    (∀ (env : Env) (store : Store) (op : WalletOperation) (res : Except WErr Wallet)
        (store' : Store) (n : Nat) (sl : List Nat) (e : WErr),
        ProcessOperation env store op = (res, store', n, sl) →
        res = Except.error e → store' = store) ∧
    (∀ (store : Store) (id : Nat) (amount : Int) (opType : String),
        UpdateWalletBalance store id amount opType =
            Except.error WErr.insufficientFunds ↔
          opType = OperationTypeWithdraw ∧
            ∃ w, lookupWallet store id = some w ∧ w.balance < amount) := by
  constructor
  · intro env store op res store' n sl e hP hres
    rw [hres] at hP
    exact ProcessOperation_error_store hP
  · exact UpdateWalletBalance_insufficient_iff

/-- Claim C2, witness: a Withdraw of 5 from a fresh wallet (balance 0) fails
with `InsufficientFunds` after one attempt and leaves the store exactly as it
was. -/
theorem claim2_witness :
    ProcessOperation (fun _ => none) [(0, createWallet 0)]
        { walletID := 0, operationType := "WITHDRAW", amount := 5 } =
      (Except.error WErr.insufficientFunds, [(0, createWallet 0)], 1, []) ∧
    [(0, createWallet 0)] = ([(0, createWallet 0)] : Store) :=
  ⟨rfl, claim2_error_atomicity.1 (fun _ => none) [(0, createWallet 0)]
    { walletID := 0, operationType := "WITHDRAW", amount := 5 }
    (Except.error WErr.insufficientFunds) [(0, createWallet 0)] 1 []
    WErr.insufficientFunds rfl rfl⟩

/-- Claim C3, counterexample: the claim as stated is false on the code.
From creation (balance 0, version 1), the validated deposits of 2^63 − 1 and
then 1 reach an observable state whose balance is −2^63 < 0: the second
deposit overflows int64 and wraps. -/
theorem claim3_counterexample :
    lookupWallet (runOps [(0, createWallet 0)]
      [({ walletID := 0, operationType := "DEPOSIT", amount := int64Max },
          fun _ => none),
       ({ walletID := 0, operationType := "DEPOSIT", amount := 1 },
          fun _ => none)]) 0 =
      some { id := 0, balance := int64Min, version := 3 } ∧
    int64Min < 0 :=
  ⟨rfl, by decide⟩

/-- Claim C3 (amended): for every store whose balances are nonnegative int64
values and every sequence of client calls in which each deposit fits in
int64 at the state where it is applied, every balance along the run stays a
nonnegative int64 value; and every successful mutation returns (and stores)
a wallet whose version is exactly the prior version + 1, so versions
strictly increase and are never reused.  (The claim as originally stated
omits the no-overflow proviso on deposits; see the counterexample.) -/
theorem claim3_amended :
    (∀ (store : Store) (ops : List (WalletOperation × Env)),
        walletInvB store = true → noOverflowAlong store ops = true →
        walletInvB (runOps store ops) = true) ∧
    (∀ (env : Env) (store : Store) (op : WalletOperation) (store' : Store)
        (n : Nat) (sl : List Nat) (w : Wallet),
        ProcessOperation env store op = (Except.ok w, store', n, sl) →
        ∃ v, lookupWallet store op.walletID = some v ∧
          w.version = v.version + 1 ∧ lookupWallet store' op.walletID = some w) := by
  constructor
  · intro store ops h1 h2
    exact runOps_preserves ops store h1 h2
  · intro env store op store' n sl w hP
    obtain ⟨v, nb, hL, hC, hw, hs, hV⟩ := ProcessOperation_ok_shape hP
    refine ⟨v, hL, by rw [hw], ?_⟩
    rw [hs]
    exact lookupWallet_setWallet w hL

/-- Claim C3, witness: from a fresh wallet, deposit 5 then withdraw 3; the
invariant holds along the run, and the deposit bumps version 1 to 2. -/
theorem claim3_witness :
    walletInvB (runOps [(0, createWallet 0)]
      [({ walletID := 0, operationType := "DEPOSIT", amount := 5 }, fun _ => none),
       ({ walletID := 0, operationType := "WITHDRAW", amount := 3 }, fun _ => none)]) =
      true ∧
    ∃ v, lookupWallet [(0, createWallet 0)] 0 = some v ∧
      ({ id := 0, balance := 5, version := 2 } : Wallet).version = v.version + 1 ∧
      lookupWallet [(0, { id := 0, balance := 5, version := 2 })] 0 =
        some { id := 0, balance := 5, version := 2 } :=
  ⟨claim3_amended.1 [(0, createWallet 0)]
    [({ walletID := 0, operationType := "DEPOSIT", amount := 5 }, fun _ => none),
     ({ walletID := 0, operationType := "WITHDRAW", amount := 3 }, fun _ => none)]
    rfl rfl,
   claim3_amended.2 (fun _ => none) [(0, createWallet 0)]
    { walletID := 0, operationType := "DEPOSIT", amount := 5 }
    [(0, { id := 0, balance := 5, version := 2 })] 1 []
    { id := 0, balance := 5, version := 2 } rfl⟩

/-- Claim C4: `ProcessOperation` makes at most 5 repository attempts; the
sleep performed before the k-th retry is the k-th element of the doubling
schedule 10, 20, 40, ... ms; a terminal `NotFound`/`InsufficientFunds`
failure at attempt n is returned with exactly the n − 1 sleeps that preceded
attempt n (no delay after it); and a validated call that stops before the
5th attempt stopped only because of success or a terminal error, i.e. every
`VersionConflict` or other non-business-rule store error triggers a retry. -/
theorem claim4_retry_policy :
    ∀ (env : Env) (store : Store) (op : WalletOperation) (res : Except WErr Wallet)
      (store' : Store) (n : Nat) (sl : List Nat),
      ProcessOperation env store op = (res, store', n, sl) →
      n ≤ 5 ∧
      sl = (List.range sl.length).map (fun j => 10 * 2 ^ j) ∧
      (∀ e, res = Except.error e → isTerminalErr e = true → sl.length = n - 1) ∧
      (validateOperation op = none → n < 5 →
        (∃ w, res = Except.ok w) ∨
        (∃ e, res = Except.error e ∧ isTerminalErr e = true)) := by
  intro env store op res store' n sl hP
  unfold ProcessOperation at hP
  cases hV : validateOperation op with
  | some ev =>
    rw [hV] at hP
    simp only [Prod.mk.injEq] at hP
    obtain ⟨hres, _, hn, hsl⟩ := hP
    refine ⟨by omega, by rw [← hsl]; simp, ?_, ?_⟩
    · intro e _ _
      rw [← hsl, ← hn]
      simp
    · intro hnone _
      simp at hnone
  | none =>
    rw [hV] at hP
    obtain ⟨k, hsl, hdisj⟩ := processLoop_trace 4 0 10 store [] hP
    rw [List.nil_append] at hsl
    have hlen : sl.length = k := by
      rw [hsl]
      simp
    refine ⟨?_, ?_, ?_, ?_⟩
    · rcases hdisj with ⟨hk, hn, _⟩ | ⟨hk, hn, _⟩ <;> omega
    · rw [hlen, hsl]
    · intro e hres hterm
      rcases hdisj with ⟨hk, hn, _⟩ | ⟨hk, hn, he⟩
      · omega
      · obtain ⟨e', he'⟩ := he
        rw [hres] at he'
        rw [Except.error.injEq] at he'
        rw [he'] at hterm
        simp [isTerminalErr] at hterm
    · intro _ hn5
      rcases hdisj with ⟨hk, hn, hor⟩ | ⟨hk, hn, _⟩
      · exact hor
      · omega

/-- Claim C4, witness: with faults injected on the first two attempts, a
deposit succeeds on attempt 3 of 5 after sleeping 10ms then 20ms. -/
theorem claim4_witness :
    ProcessOperation (fun i => if i < 2 then some (WErr.infra 7) else none)
        [(0, createWallet 0)] { walletID := 0, operationType := "DEPOSIT", amount := 2 } =
      (Except.ok { id := 0, balance := 2, version := 2 },
        [(0, { id := 0, balance := 2, version := 2 })], 3, [10, 20]) ∧
    (3 : Nat) ≤ 5 ∧
    ([10, 20] : List Nat) = (List.range 2).map (fun j => 10 * 2 ^ j) := by
  have h := claim4_retry_policy (fun i => if i < 2 then some (WErr.infra 7) else none)
    [(0, createWallet 0)] { walletID := 0, operationType := "DEPOSIT", amount := 2 }
    (Except.ok { id := 0, balance := 2, version := 2 })
    [(0, { id := 0, balance := 2, version := 2 })] 3 [10, 20] rfl
  exact ⟨rfl, h.1, h.2.1⟩

/-- Claim C5: if all 5 attempts fail with retryable errors, `ProcessOperation`
returns `RetriesExhausted` wrapping the error of the last (5th) attempt, and
a `RetriesExhausted` value is distinct from the business-rule errors
`NotFound` and `InsufficientFunds` whatever it wraps. -/
theorem claim5_retries_exhausted :
    ∀ (env : Env) (store : Store) (op : WalletOperation),
      validateOperation op = none →
      (∀ i, i < 5 → ∃ e, (attemptOnce store op (env i)).1 = Except.error e ∧
          isTerminalErr e = false) →
      ∃ e, (attemptOnce store op (env 4)).1 = Except.error e ∧
        (ProcessOperation env store op).1 =
          Except.error (WErr.retriesExhausted e) ∧
        (∀ e', WErr.retriesExhausted e' ≠ WErr.walletNotFound) ∧
        (∀ e', WErr.retriesExhausted e' ≠ WErr.insufficientFunds) := by
  intro env store op hV hall
  have hall' : ∀ j, j ≤ 4 →
      ∃ e, (attemptOnce store op (env (0 + j))).1 = Except.error e ∧
        isTerminalErr e = false := by
    intro j hj
    simpa using hall j (by omega)
  obtain ⟨e, hE, hL⟩ := processLoop_all_fail 4 0 10 store [] hall'
  have hPP : ProcessOperation env store op =
      processLoop env op 0 4 10 store [] := by
    unfold ProcessOperation
    rw [hV]
  refine ⟨e, by simpa using hE, ?_, fun e' => by simp, fun e' => by simp⟩
  rw [hPP, hL]

/-- Claim C5, witness: with a version conflict injected on every attempt, a
validated deposit exhausts all 5 attempts and surfaces `RetriesExhausted`
wrapping the conflict error. -/
theorem claim5_witness :
    (ProcessOperation (fun _ => some WErr.concurrentModification)
        [(0, createWallet 0)]
        { walletID := 0, operationType := "DEPOSIT", amount := 1 }).1 =
      Except.error (WErr.retriesExhausted WErr.concurrentModification) := by
  obtain ⟨e, hE, hP, _, _⟩ := claim5_retries_exhausted
    (fun _ => some WErr.concurrentModification) [(0, createWallet 0)]
    { walletID := 0, operationType := "DEPOSIT", amount := 1 } rfl
    (fun i _ => ⟨WErr.concurrentModification, rfl, rfl⟩)
  have he : WErr.concurrentModification = e := by
    injection hE
  rw [← he] at hP
  exact hP

/-- Claim C6: the code does NOT check overflow in the Compute step of a
Deposit.  At the failing input (balance 2^63 − 1, deposit amount 1) the
update succeeds and silently stores the wrapped int64 value −2^63, a
negative balance, instead of failing with a fatal input error as the spec
requires. -/
theorem claim6_overflow_wraps :
    UpdateWalletBalance [(0, { id := 0, balance := int64Max, version := 1 })] 0 1
        OperationTypeDeposit =
      Except.ok ([(0, { id := 0, balance := int64Min, version := 2 })],
        { id := 0, balance := int64Min, version := 2 }) ∧
    int64Min < 0 :=
  ⟨rfl, by decide⟩

/-- Claim C7, counterexample: the claim as stated is false on the code.  For
the operation (kind "X", amount −5) the kind is neither Deposit nor
Withdraw, yet validation fails with `InvalidAmount`
(`ErrAmountMustBePositive`), not `InvalidOperationKind`: the amount check
runs first, so "fails with InvalidOperationKind exactly when the kind is
invalid" does not hold in the right-to-left direction. -/
theorem claim7_counterexample :
    (("X" : String) ≠ OperationTypeDeposit ∧ ("X" : String) ≠ OperationTypeWithdraw) ∧
    validateOperation { walletID := 0, operationType := "X", amount := -5 } =
      some WErr.amountMustBePositive ∧
    WErr.amountMustBePositive ≠ WErr.invalidOperationType :=
  ⟨⟨by decide, by decide⟩, rfl, by decide⟩

/-- Claim C7 (amended): validation is a pure function of the operation; it
fails with `InvalidAmount` exactly when amount ≤ 0; it fails with
`InvalidOperationKind` exactly when amount > 0 and the kind is neither
Deposit nor Withdraw (the amount check takes precedence — this is the only
change from the claim as stated, see the counterexample); it passes exactly
the remaining operations; and when it fails, `ProcessOperation` returns the
validation error with zero repository attempts, no sleeps and an unchanged
store — before any store access and never retried. -/
theorem claim7_amended :
    ∀ (op : WalletOperation),
      (validateOperation op = some WErr.amountMustBePositive ↔ op.amount ≤ 0) ∧
      (validateOperation op = some WErr.invalidOperationType ↔
        (0 < op.amount ∧ op.operationType ≠ OperationTypeDeposit ∧
          op.operationType ≠ OperationTypeWithdraw)) ∧
      (validateOperation op = none ↔
        (0 < op.amount ∧ (op.operationType = OperationTypeDeposit ∨
          op.operationType = OperationTypeWithdraw))) ∧
      (∀ (env : Env) (store : Store) (e : WErr), validateOperation op = some e →
        ProcessOperation env store op = (Except.error e, store, 0, [])) := by
  intro op
  refine ⟨validateOperation_amount_iff op, validateOperation_kind_iff op,
    validateOperation_none_iff op, ?_⟩
  intro env store e hv
  unfold ProcessOperation
  rw [hv]

/-- Claim C7, witness: the operation (kind "X", amount −5) is rejected by
validation and `ProcessOperation` returns immediately with zero attempts,
no sleeps, and the (here empty) store untouched. -/
theorem claim7_witness :
    ProcessOperation (fun _ => none) []
        { walletID := 3, operationType := "X", amount := -5 } =
      (Except.error WErr.amountMustBePositive, [], 0, []) :=
  (claim7_amended { walletID := 3, operationType := "X", amount := -5 }).2.2.2
    (fun _ => none) [] WErr.amountMustBePositive rfl

/-- Claim C8: the code does NOT observe cancellation at every suspension
point.  At the failing input — the caller's context cancelled from the
start, so that every store call returns the cancellation error — the service
treats the cancellation error as retryable: it performs all 5 attempts,
sleeps the full backoff schedule 10+20+40+80+160 ms (`time.Sleep` cannot
observe the context at all), and surfaces the generic retry-exhaustion
error wrapping the cancellation, not a distinct Cancelled/DeadlineExceeded
condition. -/
theorem claim8_cancellation_not_observed :
    ProcessOperation (fun _ => some WErr.ctxCanceled) [(0, createWallet 0)]
        { walletID := 0, operationType := "DEPOSIT", amount := 1 } =
      (Except.error (WErr.retriesExhausted WErr.ctxCanceled),
        [(0, createWallet 0)], 5, [10, 20, 40, 80, 160]) :=
  rfl

/-- Claim C9: two updates of the same wallet that both read version v (the
conditional `UPDATE ... WHERE version = $4`) never both succeed: the first
conditional update against v succeeds and bumps the stored version to
v + 1, and the second conditional update against the same v then fails with
`VersionConflict` (`ErrConcurrentModification`) and must retry against the
new version. -/
theorem claim9_version_conflict :
    ∀ (store : Store) (id : Nat) (v : Wallet) (nb1 nb2 : Int),
      lookupWallet store id = some v →
      ∃ store' u, conditionalUpdate store id v.version nb1 = Except.ok (store', u) ∧
        u.version = v.version + 1 ∧
        lookupWallet store' id = some u ∧
        conditionalUpdate store' id v.version nb2 =
          Except.error WErr.concurrentModification := by
  intro store id v nb1 nb2 hL
  refine ⟨_, _, conditionalUpdate_self hL nb1, rfl, lookupWallet_setWallet _ hL,
    conditionalUpdate_mismatch (lookupWallet_setWallet _ hL)
      ((by omega : v.version + 1 ≠ v.version)) nb2⟩

/-- Claim C9, witness: on a wallet at version 3, the first conditional
update against version 3 succeeds (new version 4) and the second against
version 3 observes the conflict. -/
theorem claim9_witness :
    conditionalUpdate [(0, { id := 0, balance := 50, version := 3 })] 0 3 60 =
      Except.ok ([(0, { id := 0, balance := 60, version := 4 })],
        { id := 0, balance := 60, version := 4 }) ∧
    conditionalUpdate [(0, { id := 0, balance := 60, version := 4 })] 0 3 45 =
      Except.error WErr.concurrentModification := by
  obtain ⟨store', u, h1, h2, h3, h4⟩ := claim9_version_conflict
    [(0, { id := 0, balance := 50, version := 3 })] 0
    { id := 0, balance := 50, version := 3 } 60 45 rfl
  have hval : conditionalUpdate [(0, { id := 0, balance := 50, version := 3 })] 0 3 60 =
      Except.ok ([(0, { id := 0, balance := 60, version := 4 })],
        { id := 0, balance := 60, version := 4 }) := rfl
  rw [hval] at h1
  simp only [Except.ok.injEq, Prod.mk.injEq] at h1
  obtain ⟨hs, hu⟩ := h1
  rw [← hs] at h4
  exact ⟨hval, h4⟩

/-- Claim C10: when the operation has passed validation (as it always has
before `UpdateWalletBalance` is reached through `ProcessOperation`), the
kind is DEPOSIT or WITHDRAW, so the `default` branch of the Compute switch
(`ErrUnknownOperationType`) is unreachable: the repository call never
returns that error, and neither does `ProcessOperation` itself. -/
theorem claim10_unknown_unreachable :
    ∀ (op : WalletOperation) (store : Store),
      validateOperation op = none →
      (UpdateWalletBalance store op.walletID op.amount op.operationType ≠
        Except.error WErr.unknownOperationType) ∧
      (∀ (res : Except WErr Wallet) (store' : Store) (n : Nat) (sl : List Nat),
        ProcessOperation (fun _ => none) store op = (res, store', n, sl) →
        res ≠ Except.error WErr.unknownOperationType) := by
  intro op store hV
  have hDW := ((validateOperation_none_iff op).mp hV).2
  constructor
  · exact UpdateWalletBalance_not_unknown hDW
  · intro res store' n sl hP hres
    rw [hres] at hP
    unfold ProcessOperation at hP
    rw [hV] at hP
    rcases processLoop_error_cases 4 0 10 store [] hP with ⟨j, hj⟩ | ⟨st, hst⟩ | ⟨e', he'⟩
    · simp at hj
    · exact UpdateWalletBalance_not_unknown hDW hst
    · simp at he'

/-- Claim C10, witness: for a concrete validated deposit the repository
call does not return `ErrUnknownOperationType`. -/
theorem claim10_witness :
    UpdateWalletBalance [(0, createWallet 0)] 0 5 "DEPOSIT" ≠
      Except.error WErr.unknownOperationType :=
  (claim10_unknown_unreachable { walletID := 0, operationType := "DEPOSIT", amount := 5 }
    [(0, createWallet 0)] rfl).1

end WalletSvc
